import Mathlib

/-!
Verification of the rigid-body dynamics abstraction layer of the Banshee
engine physics subsystem (`Source/BansheeCore/Include/BsRigidbody.h`).

The header under verification declares the `Rigidbody` interface: the
mass/inertia aggregation (`updateMassDistribution`), force application
(`addForce`), point-velocity queries (`getVelocityAtPoint`), collider
membership (`addCollider` / `removeCollider`), collision events
(`onCollisionBegin` / `onCollisionStay` / `onCollisionEnd`) and the opaque
owner tag (`_setOwner` / `_getOwner`).  Most of these operations are pure
virtual in the header — their bodies live in a backend implementation that
is not part of the sources at hand — so, where noted, the corresponding
Lean definitions are modelled from the specification's description of the
behaviour.  The inline members of the header (`_setOwner`, `_getOwner`,
the `ForceMode` enumeration, the flag set) are embedded directly from the
source.

Vectors are embedded as `Fin 3 → ℚ` (exact rational arithmetic in place of
`float`), quaternions as a four-component record.
-/

namespace Banshee

/-- A 3-component vector (`Vector3` in the source), over `ℚ`. -/
abbrev V3 := Fin 3 → ℚ

/-- Cross product of two 3-vectors, component-wise. -/
def cross (a b : V3) : V3 :=
  ![a 1 * b 2 - a 2 * b 1, a 2 * b 0 - a 0 * b 2, a 0 * b 1 - a 1 * b 0]

/-- A quaternion (`Quaternion` in the source); only construction and the
identity rotation are needed here. -/
structure Quat where
  w : ℚ
  x : ℚ
  y : ℚ
  z : ℚ
deriving DecidableEq

/-- The identity rotation. -/
def Quat.identity : Quat := ⟨1, 0, 0, 0⟩

/-- Modelled from the spec: a collider-set entry as consumed by the
mass/inertia aggregator.  The shape/collider descriptor interface
(`FCollider`, declared but not defined in the header) yields a local mass,
a local centroid position, and a local inertia-tensor contribution
(a 3-vector in local mass space, §3 of the spec). -/
structure Collider where
  mass : ℚ
  centroid : V3
  inertia : V3
deriving DecidableEq

/-- Result record of the mass/inertia aggregator: total mass,
center-of-mass position and rotation, inertia tensor. -/
structure MassProps where
  mass : ℚ
  comPos : V3
  comRot : Quat
  inertiaTensor : V3
deriving DecidableEq

/-- Total mass of a collider set: the sum of the per-collider masses. -/
def totalMass (cs : List Collider) : ℚ :=
  (cs.map Collider.mass).sum

/-- Mass-weighted sum of the collider centroids. -/
def weightedCentroidSum (cs : List Collider) : V3 :=
  (cs.map fun c => c.mass • c.centroid).sum

/-- Parallel-axis correction for a point mass `m` at offset `d` from the
aggregate center of mass, expressed on the inertia-tensor diagonal. -/
def parallelAxis (m : ℚ) (d : V3) : V3 :=
  ![m * (d 1 ^ 2 + d 2 ^ 2), m * (d 0 ^ 2 + d 2 ^ 2), m * (d 0 ^ 2 + d 1 ^ 2)]

/-- The mass-weighted centroid of a collider set: the aggregate center of
mass, or the origin when the total mass is zero. -/
def comOf (cs : List Collider) : V3 :=
  if totalMass cs = 0 then 0 else (totalMass cs)⁻¹ • weightedCentroidSum cs

/-- Modelled from the spec: the Mass/Inertia Aggregator,
`recompute(colliderSet) -> (mass, comPos, comRot, inertiaTensor)` (§4.1),
the computation behind `Rigidbody::updateMassDistribution`, whose body is
not in the sources at hand (the header only declares the virtual).  It
sums per-collider mass contributions, takes the mass-weighted centroid as
the center of mass, and sums each shape's inertia contribution plus its
parallel-axis correction.  An empty collider set yields mass `0`, identity
center of mass and a zero inertia tensor.  The orientation of the inertia
tensor's principal frame is left open by the spec (§9); the model uses the
identity rotation. -/
def recompute (cs : List Collider) : MassProps :=
  { mass := totalMass cs
    comPos := comOf cs
    comRot := Quat.identity
    inertiaTensor :=
      (cs.map fun c => c.inertia + parallelAxis c.mass (c.centroid - comOf cs)).sum }

/-- Summing a function over a list equals summing it over the indices. -/
lemma list_map_sum_eq_fin {α : Type} [AddCommMonoid α] (cs : List Collider) (f : Collider → α) :
    (cs.map f).sum = ∑ i : Fin cs.length, f (cs.get i) := by
  induction cs with
  | nil => simp
  | cons a l ih =>
    simp only [List.map_cons, List.sum_cons, List.length_cons, Fin.sum_univ_succ,
      List.get_cons_zero, ih]
    rfl

/-- When the total mass is nonzero, the computed center of mass is the
`Finset.centerMass` of the collider centroids weighted by their masses. -/
lemma recompute_comPos_eq_centerMass (cs : List Collider) (hm : totalMass cs ≠ 0) :
    (recompute cs).comPos =
      Finset.univ.centerMass (fun i : Fin cs.length => (cs.get i).mass)
        (fun i : Fin cs.length => (cs.get i).centroid) := by
  simp only [recompute, comOf, if_neg hm, Finset.centerMass]
  rw [totalMass, weightedCentroidSum, list_map_sum_eq_fin cs Collider.mass,
    list_map_sum_eq_fin cs fun c => c.mass • c.centroid]

/-- C1: for every non-empty collider set in which every collider has
positive mass, the aggregation returns a total mass equal to the sum of
the per-collider masses, and a center of mass lying in the convex hull of
the contributing shapes' centroids. -/
theorem recompute_mass_sum_and_com_in_hull (cs : List Collider) (hne : cs ≠ [])
    (hpos : ∀ c ∈ cs, 0 < c.mass) :
    (recompute cs).mass = (cs.map Collider.mass).sum ∧
    (recompute cs).comPos ∈ convexHull ℚ {p : V3 | p ∈ cs.map Collider.centroid} := by
  have hm : 0 < totalMass cs := by
    apply List.sum_pos
    · intro x hx
      obtain ⟨c, hc, rfl⟩ := List.mem_map.mp hx
      exact hpos c hc
    · simpa using hne
  refine ⟨rfl, ?_⟩
  rw [recompute_comPos_eq_centerMass cs (ne_of_gt hm)]
  apply Finset.centerMass_mem_convexHull
  · intro i _
    exact le_of_lt (hpos _ (cs.get_mem i i.isLt))
  · rw [← list_map_sum_eq_fin cs Collider.mass]
    exact hm
  · intro i _
    exact List.mem_map_of_mem Collider.centroid (cs.get_mem i i.isLt)

/-- Witness for C1 at a concrete two-collider set. -/
theorem recompute_mass_sum_and_com_in_hull_witness :
    (([⟨1, ![0, 0, 0], ![0, 0, 0]⟩, ⟨3, ![2, 0, 0], ![1, 1, 1]⟩] : List Collider) ≠ [] ∧
      ∀ c ∈ ([⟨1, ![0, 0, 0], ![0, 0, 0]⟩, ⟨3, ![2, 0, 0], ![1, 1, 1]⟩] : List Collider),
        0 < c.mass) ∧
    ((recompute [⟨1, ![0, 0, 0], ![0, 0, 0]⟩, ⟨3, ![2, 0, 0], ![1, 1, 1]⟩]).mass =
        (([⟨1, ![0, 0, 0], ![0, 0, 0]⟩, ⟨3, ![2, 0, 0], ![1, 1, 1]⟩] : List Collider).map
          Collider.mass).sum ∧
      (recompute [⟨1, ![0, 0, 0], ![0, 0, 0]⟩, ⟨3, ![2, 0, 0], ![1, 1, 1]⟩]).comPos ∈
        convexHull ℚ {p : V3 |
          p ∈ ([⟨1, ![0, 0, 0], ![0, 0, 0]⟩, ⟨3, ![2, 0, 0], ![1, 1, 1]⟩] : List Collider).map
            Collider.centroid}) :=
  ⟨⟨by decide, by decide⟩,
    recompute_mass_sum_and_com_in_hull _ (by decide) (by decide)⟩

/-- C6: the aggregation on an empty collider set returns mass 0, an
identity center-of-mass transform (zero offset, identity rotation), and a
zero inertia tensor. -/
theorem recompute_empty :
    recompute [] = { mass := 0, comPos := 0, comRot := Quat.identity, inertiaTensor := 0 } := by
  simp [recompute, comOf, totalMass, weightedCentroidSum]

/-- Type of force or torque that can be applied to a rigidbody
(`ForceMode` in `BsRigidbody.h`): a force, an impulse (direct change of
momentum), a velocity (direct set), or an acceleration. -/
inductive ForceMode where
  | Force
  | Impulse
  | Velocity
  | Acceleration
deriving DecidableEq

/-- Modelled from the spec: the observable state of a `Rigidbody` relevant
to the claims.  The header stores flags (`Flag::AutoTensors`,
`Flag::AutoMass`), the kinematic flag, velocities, mass, inertia tensor
and center-of-mass transform behind pure-virtual accessors whose backing
fields live in the backend implementation, not in the sources at hand.
The bitmask flag set is modelled as named booleans. -/
structure Body where
  position : V3
  rotation : Quat
  linearVelocity : V3
  angularVelocity : V3
  mass : ℚ
  inertiaTensor : V3
  comPos : V3
  comRot : Quat
  autoTensors : Bool
  autoMass : Bool
  kinematic : Bool
  colliders : List Collider
deriving DecidableEq

/-- Modelled from the spec: when auto-mass is disabled but auto-tensors is
enabled, the externally set mass is used as a fixed scalar and distributed
proportionally across the colliders for inertia purposes (§4.1). -/
def scaleColliders (cs : List Collider) (target : ℚ) : List Collider :=
  if totalMass cs = 0 then cs
  else cs.map fun c => { c with mass := target / totalMass cs * c.mass }

/-- Modelled from the spec: `Rigidbody::updateMassDistribution` (declared
virtual in the header with an empty default body; the backend override is
not in the sources at hand).  Per the header's doc comment and §4.2 of the
spec it is a no-op when automatic tensor calculation is off; otherwise it
delegates to the aggregator and writes mass (only when auto-mass is on;
otherwise the externally set mass is kept), center-of-mass position and
rotation, and inertia tensor into the body's state. -/
def updateMassDistribution (b : Body) : Body :=
  if b.autoTensors then
    let r := recompute (if b.autoMass then b.colliders else scaleColliders b.colliders b.mass)
    { b with
      mass := if b.autoMass then r.mass else b.mass
      comPos := r.comPos
      comRot := r.comRot
      inertiaTensor := r.inertiaTensor }
  else b

/-- Modelled from the spec: `Rigidbody::addCollider` registers a new
collider as a child of the rigidbody (appended, keeping attachment order)
and triggers `updateMassDistribution`, which is a no-op when auto-tensors
is disabled (§4.2). -/
def addCollider (b : Body) (c : Collider) : Body :=
  updateMassDistribution { b with colliders := b.colliders ++ [c] }

/-- Modelled from the spec: `Rigidbody::removeCollider` removes a collider
from the child list (removing a collider that is not attached is a no-op,
not an error, §7) and triggers `updateMassDistribution`, which is a no-op
when auto-tensors is disabled (§4.2). -/
def removeCollider (b : Body) (c : Collider) : Body :=
  updateMassDistribution { b with colliders := b.colliders.erase c }

/-- C5: when the AutoTensors flag is disabled, `updateMassDistribution`
is a no-op: the whole body state, mass, inertia tensor and center-of-mass
transform included, is unchanged. -/
theorem updateMassDistribution_noop_without_autoTensors (b : Body)
    (h : b.autoTensors = false) : updateMassDistribution b = b := by
  simp [updateMassDistribution, h]

/-- Witness for C5 at a concrete body. -/
theorem updateMassDistribution_noop_without_autoTensors_witness :
    (Body.mk 0 Quat.identity 0 0 5 0 0 Quat.identity false false false []).autoTensors = false ∧
    updateMassDistribution (Body.mk 0 Quat.identity 0 0 5 0 0 Quat.identity false false false [])
      = Body.mk 0 Quat.identity 0 0 5 0 0 Quat.identity false false false [] :=
  ⟨by decide,
    updateMassDistribution_noop_without_autoTensors _ (by decide)⟩

/-- C3: `updateMassDistribution` is idempotent — with the collider set
unchanged, a second invocation produces the same mass, center-of-mass
position and rotation, and inertia tensor (here: the same body state,
exactly, as the model computes over `ℚ`). -/
theorem updateMassDistribution_idempotent (b : Body) :
    updateMassDistribution (updateMassDistribution b) = updateMassDistribution b := by
  obtain ⟨pos, rot, lv, av, m, it, cp, cr, aT, aM, k, cs⟩ := b
  cases aT <;> cases aM <;> simp [updateMassDistribution]

/-- Erasing an element that is not in the list leaves it unchanged. -/
lemma erase_not_mem_eq (l : List Collider) (c : Collider) (h : c ∉ l) : l.erase c = l :=
  List.erase_of_not_mem h

/-- Erasing a freshly appended element recovers the original list when the
element was not already present. -/
lemma erase_append_singleton (l : List Collider) (c : Collider) (h : c ∉ l) :
    (l ++ [c]).erase c = l := by
  induction l with
  | nil => simp
  | cons a t ih =>
    rw [List.mem_cons, not_or] at h
    rw [List.cons_append, List.erase_cons_tail, ih h.2]
    simp only [beq_iff_eq]
    exact fun hh => h.1 hh.symm

/-- C9: removing a collider that is not attached to the body is a no-op —
for a body whose derived state is in sync with its collider set (the §3
invariant maintained by every mutation), `removeCollider` leaves the
collider membership, mass, inertia tensor, and center-of-mass transform
unchanged; no error is signalled (the operation is total). -/
theorem removeCollider_not_attached_noop (b : Body) (c : Collider)
    (hsync : updateMassDistribution b = b) (hc : c ∉ b.colliders) :
    removeCollider b c = b := by
  rw [removeCollider, erase_not_mem_eq _ _ hc]
  exact hsync

/-- Witness for C9 at a concrete body and collider. -/
theorem removeCollider_not_attached_noop_witness :
    (updateMassDistribution (Body.mk 0 Quat.identity 0 0 2 0 0 Quat.identity false false false [])
        = Body.mk 0 Quat.identity 0 0 2 0 0 Quat.identity false false false [] ∧
      (⟨1, ![0, 0, 0], ![0, 0, 0]⟩ : Collider) ∉
        (Body.mk 0 Quat.identity 0 0 2 0 0 Quat.identity false false false []).colliders) ∧
    removeCollider (Body.mk 0 Quat.identity 0 0 2 0 0 Quat.identity false false false [])
        ⟨1, ![0, 0, 0], ![0, 0, 0]⟩
      = Body.mk 0 Quat.identity 0 0 2 0 0 Quat.identity false false false [] :=
  ⟨⟨by decide, by decide⟩,
    removeCollider_not_attached_noop _ _ (by decide) (by decide)⟩

/-- The aggregation is invariant under permutation of the collider set:
all of its outputs are sums over the set. -/
lemma recompute_perm (cs₁ cs₂ : List Collider) (h : cs₁.Perm cs₂) :
    recompute cs₁ = recompute cs₂ := by
  have hm : totalMass cs₁ = totalMass cs₂ := (h.map Collider.mass).sum_eq
  have hw : weightedCentroidSum cs₁ = weightedCentroidSum cs₂ := by
    rw [weightedCentroidSum, weightedCentroidSum]
    exact List.Perm.sum_eq (List.Perm.map (fun c => c.mass • c.centroid) h)
  have hcom : comOf cs₁ = comOf cs₂ := by rw [comOf, comOf, hm, hw]
  simp only [recompute, hm, hcom, MassProps.mk.injEq, true_and]
  exact (h.map fun c => c.inertia + parallelAxis c.mass (c.centroid - comOf cs₂)).sum_eq

/-- Proportional mass redistribution maps permuted sets to permuted
sets. -/
lemma scaleColliders_perm (cs₁ cs₂ : List Collider) (t : ℚ) (h : cs₁.Perm cs₂) :
    (scaleColliders cs₁ t).Perm (scaleColliders cs₂ t) := by
  have hm : totalMass cs₁ = totalMass cs₂ := (h.map Collider.mass).sum_eq
  rw [scaleColliders, scaleColliders, hm]
  by_cases h0 : totalMass cs₂ = 0
  · simpa [h0] using h
  · simpa [h0] using h.map fun c => { c with mass := t / totalMass cs₂ * c.mass }

/-- Appending an element and erasing it again permutes back to the
original list (exactly recovers it when the element was not present). -/
lemma erase_append_perm (l : List Collider) (c : Collider) :
    ((l ++ [c]).erase c).Perm l := by
  by_cases h : c ∈ l
  · rw [List.erase_append_left _ h]
    exact (List.perm_append_singleton c (l.erase c)).trans (List.perm_cons_erase h).symm
  · rw [erase_append_singleton l c h]

/-- C4: adding a collider and immediately removing it restores the body's
mass, inertia tensor, and center-of-mass position and rotation to their
pre-addition values, for every collider and every body whose derived
state is in sync with its collider set (the §3 invariant: with
auto-tensors on, those fields are fully derived from the collider set; a
body with auto-tensors off satisfies the hypothesis trivially). -/
theorem addCollider_removeCollider_roundtrip (b : Body) (c : Collider)
    (hsync : updateMassDistribution b = b) :
    (removeCollider (addCollider b c) c).mass = b.mass ∧
    (removeCollider (addCollider b c) c).inertiaTensor = b.inertiaTensor ∧
    (removeCollider (addCollider b c) c).comPos = b.comPos ∧
    (removeCollider (addCollider b c) c).comRot = b.comRot := by
  obtain ⟨pos, rot, lv, av, m, it, cp, cr, aT, aM, k, cs⟩ := b
  have hperm : ((cs ++ [c]).erase c).Perm cs := erase_append_perm cs c
  cases aT
  · simp [addCollider, removeCollider, updateMassDistribution]
  · cases aM
    · have h2 : recompute (scaleColliders ((cs ++ [c]).erase c) m) =
          recompute (scaleColliders cs m) :=
        recompute_perm _ _ (scaleColliders_perm _ _ m hperm)
      simp_all [addCollider, removeCollider, updateMassDistribution, Body.mk.injEq]
    · have h2 : recompute ((cs ++ [c]).erase c) = recompute cs := recompute_perm _ _ hperm
      simp_all [addCollider, removeCollider, updateMassDistribution, Body.mk.injEq]

/-- Witness for C4 at a concrete body and collider. -/
theorem addCollider_removeCollider_roundtrip_witness :
    (updateMassDistribution (Body.mk 0 Quat.identity 0 0 3 0 0 Quat.identity false false false [])
        = Body.mk 0 Quat.identity 0 0 3 0 0 Quat.identity false false false []) ∧
    ((removeCollider
        (addCollider (Body.mk 0 Quat.identity 0 0 3 0 0 Quat.identity false false false [])
          ⟨2, ![1, 0, 0], ![1, 1, 1]⟩) ⟨2, ![1, 0, 0], ![1, 1, 1]⟩).mass = 3 ∧
      (removeCollider
        (addCollider (Body.mk 0 Quat.identity 0 0 3 0 0 Quat.identity false false false [])
          ⟨2, ![1, 0, 0], ![1, 1, 1]⟩) ⟨2, ![1, 0, 0], ![1, 1, 1]⟩).inertiaTensor = 0 ∧
      (removeCollider
        (addCollider (Body.mk 0 Quat.identity 0 0 3 0 0 Quat.identity false false false [])
          ⟨2, ![1, 0, 0], ![1, 1, 1]⟩) ⟨2, ![1, 0, 0], ![1, 1, 1]⟩).comPos = 0 ∧
      (removeCollider
        (addCollider (Body.mk 0 Quat.identity 0 0 3 0 0 Quat.identity false false false [])
          ⟨2, ![1, 0, 0], ![1, 1, 1]⟩) ⟨2, ![1, 0, 0], ![1, 1, 1]⟩).comRot = Quat.identity) :=
  ⟨by decide,
    addCollider_removeCollider_roundtrip _ _ (by decide)⟩

/-- Modelled from the spec: the world-space position of the body's center
of mass — the body's position offset by the local center-of-mass offset
(the mapping of the local offset through the body's orientation is
performed by the external math library and does not affect the claims). -/
def comWorldPosition (b : Body) : V3 :=
  b.position + b.comPos

/-- Modelled from the spec: `Rigidbody::getVelocityAtPoint` (pure virtual
in the header; the backend override is not in the sources at hand).  Per
§4.2 it returns
`linearVelocity + angularVelocity × (point - centerOfMassWorldPosition)`. -/
def getVelocityAtPoint (b : Body) (point : V3) : V3 :=
  b.linearVelocity + cross b.angularVelocity (point - comWorldPosition b)

/-- The cross product with the zero vector vanishes. -/
lemma cross_zero_right (a : V3) : cross a 0 = 0 := by
  funext i
  fin_cases i <;> simp [cross]

/-- C2: for every body state and world-space point, `getVelocityAtPoint`
returns `linearVelocity + angularVelocity × (point - comWorldPosition)`;
in particular at the center of mass the rotational term vanishes and the
result is exactly the linear velocity, for any angular velocity. -/
theorem getVelocityAtPoint_formula_and_at_com (b : Body) (point : V3) :
    getVelocityAtPoint b point =
      b.linearVelocity + cross b.angularVelocity (point - comWorldPosition b) ∧
    getVelocityAtPoint b (comWorldPosition b) = b.linearVelocity := by
  refine ⟨rfl, ?_⟩
  rw [getVelocityAtPoint, sub_self, cross_zero_right, add_zero]

/-- Modelled from the spec: `Rigidbody::addForce` applied at the center of
mass (pure virtual in the header; the backend override is not in the
sources at hand).  Per §4.2 the mode selects how the vector is integrated:
a continuous force scaled by the timestep and the inverse mass, an
instantaneous momentum change scaled by the inverse mass, a direct
velocity set, or a mass-independent acceleration scaled by the timestep.
A zero-mass body is immovable under Force and Impulse (§7,
DegenerateMassDistribution). -/
def addForce (b : Body) (f : V3) (mode : ForceMode) (dt : ℚ) : Body :=
  match mode with
  | ForceMode.Force =>
    if b.mass = 0 then b
    else { b with linearVelocity := b.linearVelocity + (dt / b.mass) • f }
  | ForceMode.Impulse =>
    if b.mass = 0 then b
    else { b with linearVelocity := b.linearVelocity + b.mass⁻¹ • f }
  | ForceMode.Velocity => { b with linearVelocity := f }
  | ForceMode.Acceleration => { b with linearVelocity := b.linearVelocity + dt • f }

/-- C7: for every body — any mass, zero included — and every vector `v`,
`addForce v Velocity` sets the linear velocity directly to `v`, leaving
the mass untouched: the outcome is independent of the body's mass. -/
theorem addForce_velocity_mode_sets_velocity (b : Body) (v : V3) (dt : ℚ) :
    (addForce b v ForceMode.Velocity dt).linearVelocity = v ∧
    (addForce b v ForceMode.Velocity dt).mass = b.mass :=
  ⟨rfl, rfl⟩

/-- The collision event emitted for a shape pair on one tick
(`onCollisionBegin` / `onCollisionStay` / `onCollisionEnd`). -/
inductive CollisionEvent where
  | Begin
  | Stay
  | End
deriving DecidableEq

/-- Modelled from the spec: the Collision Event Dispatcher (§4.3) for a
fixed shape pair; the event sources (`onCollisionBegin`, `onCollisionStay`,
`onCollisionEnd`) are declared in the header but the dispatch logic lives
in the backend, not in the sources at hand.  `contact t` tells whether the
pair is in contact on tick `t`; the dispatcher emits at most one event per
pair per tick: Begin on the first tick of contact, Stay while contact
persists, End on the first tick contact is absent, nothing otherwise. -/
def collisionEventAt (contact : ℕ → Bool) : ℕ → Option CollisionEvent
  | 0 => if contact 0 then some CollisionEvent.Begin else none
  | t + 1 =>
    if contact (t + 1) then
      if contact t then some CollisionEvent.Stay else some CollisionEvent.Begin
    else
      if contact t then some CollisionEvent.End else none

/-- C8: per tick and shape pair, at most one event is delivered (the
dispatcher yields at most one `Option` value), and exactly one of
Begin/Stay/End is emitted whenever the pair is or was in contact: Begin
exactly on the first tick of contact, Stay exactly while contact persists,
End exactly on the first tick contact is absent, and nothing when the pair
neither is nor was in contact. -/
theorem collisionEvent_exactly_one_per_tick (contact : ℕ → Bool) (t : ℕ) :
    (collisionEventAt contact (t + 1) = some CollisionEvent.Begin ↔
      contact (t + 1) = true ∧ contact t = false) ∧
    (collisionEventAt contact (t + 1) = some CollisionEvent.Stay ↔
      contact (t + 1) = true ∧ contact t = true) ∧
    (collisionEventAt contact (t + 1) = some CollisionEvent.End ↔
      contact (t + 1) = false ∧ contact t = true) ∧
    (collisionEventAt contact (t + 1) = none ↔
      contact (t + 1) = false ∧ contact t = false) ∧
    (collisionEventAt contact 0 = some CollisionEvent.Begin ↔ contact 0 = true) := by
  cases h1 : contact (t + 1) <;> cases h2 : contact t <;> cases h0 : contact 0 <;>
    simp [collisionEventAt, h1, h2, h0]

/-- Modelled from the spec: the owner-type tag of the opaque owner handle
(`PhysicsOwnerType`, declared in `BsPhysicsCommon.h`, which is not among
the sources at hand); §6 specifies an opaque owner tag
(`ownerType`, `ownerPointer`) with a distinguished unset default. -/
inductive PhysicsOwnerType where
  | None
  | Component
  | Script
deriving DecidableEq

/-- Modelled from the spec: the opaque owner handle (`PhysicsObjectOwner`
in `BsPhysicsCommon.h`, not among the sources at hand): an owner type plus
a raw pointer, modelled as `Option ℕ` with `none` for the null pointer.
A freshly constructed body carries the default: unset type, null data. -/
structure PhysicsObjectOwner where
  type : PhysicsOwnerType
  ownerData : Option ℕ
deriving DecidableEq

/-- The owner tag of a freshly constructed body, whose owner was never
set. -/
def defaultOwner : PhysicsObjectOwner :=
  { type := PhysicsOwnerType.None, ownerData := none }

/-- Embedded from `BsRigidbody.h`: `Rigidbody::_setOwner` overwrites both
fields of `mOwner` — `mOwner.type = type; mOwner.ownerData = owner;`. -/
def setOwner (_prev : PhysicsObjectOwner) (type : PhysicsOwnerType) (owner : Option ℕ) :
    PhysicsObjectOwner :=
  { type := type, ownerData := owner }

/-- Embedded from `BsRigidbody.h`: `Rigidbody::_getOwner` returns
`mOwner.type == type ? mOwner.ownerData : nullptr`. -/
def getOwner (st : PhysicsObjectOwner) (type : PhysicsOwnerType) : Option ℕ :=
  if st.type = type then st.ownerData else none

/-- C10: after `_setOwner(t, o)`, `_getOwner(q)` returns the stored owner
pointer when `q` equals the stored owner type and the null pointer
otherwise, whatever the previous tag was; and on a freshly constructed
body, `_getOwner` returns the null pointer for every queried type other
than the default (unset) owner type. -/
theorem getOwner_after_setOwner (st : PhysicsObjectOwner) (t : PhysicsOwnerType)
    (o : Option ℕ) (q : PhysicsOwnerType) (hq : q ≠ PhysicsOwnerType.None) :
    (∀ q2 : PhysicsOwnerType,
      getOwner (setOwner st t o) q2 = if q2 = t then o else none) ∧
    getOwner defaultOwner q = none := by
  constructor
  · intro q2
    by_cases h : q2 = t
    · subst h
      simp [getOwner, setOwner]
    · have h2 : ¬t = q2 := fun hh => h hh.symm
      simp [getOwner, setOwner, h, h2]
  · have h2 : ¬PhysicsOwnerType.None = q := fun hh => hq hh.symm
    simp [getOwner, defaultOwner, h2]

/-- Witness for C10 at a concrete stored tag and query. -/
theorem getOwner_after_setOwner_witness :
    (PhysicsOwnerType.Component ≠ PhysicsOwnerType.None) ∧
    ((∀ q2 : PhysicsOwnerType,
        getOwner (setOwner defaultOwner PhysicsOwnerType.Script (some 7)) q2 =
          if q2 = PhysicsOwnerType.Script then some 7 else none) ∧
      getOwner defaultOwner PhysicsOwnerType.Component = none) :=
  ⟨by decide,
    getOwner_after_setOwner defaultOwner PhysicsOwnerType.Script (some 7)
      PhysicsOwnerType.Component (by decide)⟩

end Banshee
